import Mathlib

/-!
A shallow embedding of the SODA player playback core: the playback `Queue`
(`src/audio/queue.cpp`), the navigation-level parts of `AudioEngine`
(`src/audio/audio_engine.cpp`) and the frame/duration arithmetic of
`AudioDecoder` (`src/audio/audio_decoder.cpp`).

Modelling conventions:
* `std::vector` becomes `List`; `v[i]` becomes `List.getD` (all reads the
  theorems exercise are in range).
* The `std::mt19937 rng_` member together with
  `std::uniform_int_distribution<size_t>(0, i)` is modelled as a stream of
  raw numbers carried in the state: one draw for bound `i` consumes the head
  `r` and yields `r % (i + 1)`, so every outcome the C++ generator can
  produce is realisable by some stream.
* `float` audio samples and the volume are modelled as exact rationals.
* Mutexes and atomics serialise the C++ methods; each method is embedded as
  a pure state-to-state function.
-/

namespace Soda

/-- `soda::TrackInfo` restricted to the fields the playback core reads. -/
structure TrackInfo where
  id : String
  title : String
  artist : String
  album : String
  filePath : String
  sourceId : String
  deriving DecidableEq, Repr, Inhabited

/-- `soda::Queue`: track list, shuffle permutation, history stack, cursor,
shuffle flag, and the modelled random stream (`rng_`). -/
structure Queue where
  tracks : List TrackInfo
  shuffleOrder : List Nat
  history : List Nat
  currentIndex : Nat
  shuffled : Bool
  rng : List Nat
  deriving DecidableEq, Repr

/-- A freshly constructed queue (all containers empty, cursor 0), seeded
with a given random stream. -/
def Queue.mk0 (rng : List Nat) : Queue :=
  { tracks := [], shuffleOrder := [], history := [], currentIndex := 0,
    shuffled := false, rng := rng }

/-- One draw of `std::uniform_int_distribution<size_t>(0, i)(rng_)`:
consume the head of the stream and reduce it into `[0, i]`. -/
def draw (i : Nat) (rng : List Nat) : Nat × List Nat :=
  match rng with
  | [] => (0, [])
  | r :: rest => (r % (i + 1), rest)

/-- `std::swap(l[i], l[j])` on a list. -/
def swapL (l : List Nat) (i j : Nat) : List Nat :=
  let a := l.getD i 0
  let b := l.getD j 0
  (l.set i b).set j a

/-- The unrestricted Fisher-Yates loop of `Queue::updateShuffleOrder`:
`for (i = n-1; i > 0; --i) swap(order[i], order[dist(0,i)(rng)])`.
The first argument is the loop counter `i`. -/
def fyAll : Nat → List Nat → List Nat → List Nat × List Nat
  | 0, order, rng => (order, rng)
  | i + 1, order, rng =>
    let d := draw (i + 1) rng
    fyAll i (swapL order (i + 1) d.1) d.2

/-- `Queue::updateShuffleOrder`: resize to the track count, refill with
iota, then re-shuffle with an unpinned Fisher-Yates pass. -/
def Queue.updateShuffleOrder (q : Queue) : Queue :=
  if q.tracks.isEmpty then { q with shuffleOrder := [] }
  else
    let len := q.tracks.length
    let p := fyAll (len - 1) (List.range len) q.rng
    { q with shuffleOrder := p.1, rng := p.2 }

/-- `Queue::add`: append; while shuffled, also append the new natural index
to the permutation's tail. -/
def Queue.add (t : TrackInfo) (q : Queue) : Queue :=
  let tracks' := q.tracks ++ [t]
  if q.shuffled then
    { q with tracks := tracks', shuffleOrder := q.shuffleOrder ++ [tracks'.length - 1] }
  else { q with tracks := tracks' }

/-- `Queue::addAll`: append a block; while shuffled, append the new natural
indices `startIndex, …, newLen-1` to the permutation. -/
def Queue.addAll (ts : List TrackInfo) (q : Queue) : Queue :=
  let startIndex := q.tracks.length
  let tracks' := q.tracks ++ ts
  if q.shuffled then
    { q with tracks := tracks', shuffleOrder := q.shuffleOrder ++ List.range' startIndex ts.length }
  else { q with tracks := tracks' }

/-- `Queue::addNext`: insert right after the cursor (or push back when the
cursor is at/past the tail); regenerate the permutation while shuffled. -/
def Queue.addNext (t : TrackInfo) (q : Queue) : Queue :=
  let insertPos := q.currentIndex + 1
  let tracks' :=
    if insertPos ≥ q.tracks.length then q.tracks ++ [t]
    else q.tracks.take insertPos ++ [t] ++ q.tracks.drop insertPos
  let q1 := { q with tracks := tracks' }
  if q.shuffled then q1.updateShuffleOrder else q1

/-- `Queue::remove(size_t)`: erase one entry by natural index, adjust or
clamp the cursor, regenerate the permutation while shuffled. -/
def Queue.remove (index : Nat) (q : Queue) : Queue :=
  if index ≥ q.tracks.length then q
  else
    let tracks' := q.tracks.eraseIdx index
    let cur' :=
      if index < q.currentIndex then q.currentIndex - 1
      else if index = q.currentIndex ∧ q.currentIndex ≥ tracks'.length then
        (if tracks'.isEmpty then 0 else tracks'.length - 1)
      else q.currentIndex
    let q1 := { q with tracks := tracks', currentIndex := cur' }
    if q.shuffled then q1.updateShuffleOrder else q1

/-- `Queue::remove(const std::string&)`: erase the first entry whose id
matches; only the `index < currentIndex` cursor adjustment is performed
(the source has no clamp in this overload). -/
def Queue.removeId (trackId : String) (q : Queue) : Queue :=
  match q.tracks.findIdx? (fun t => t.id == trackId) with
  | none => q
  | some index =>
    let tracks' := q.tracks.eraseIdx index
    let cur' := if index < q.currentIndex then q.currentIndex - 1 else q.currentIndex
    let q1 := { q with tracks := tracks', currentIndex := cur' }
    if q.shuffled then q1.updateShuffleOrder else q1

/-- `Queue::clear`: empty tracks, permutation and history; cursor to 0
(the `shuffled_` flag is left as is, as in the source). -/
def Queue.clear (q : Queue) : Queue :=
  { q with tracks := [], shuffleOrder := [], history := [], currentIndex := 0 }

/-- `Queue::move`: relocate one entry, then fix the cursor per the three
source cases; regenerate the permutation while shuffled. -/
def Queue.move (fromIndex toIndex : Nat) (q : Queue) : Queue :=
  if fromIndex ≥ q.tracks.length ∨ toIndex ≥ q.tracks.length then q
  else
    let t := q.tracks.getD fromIndex default
    let ts := q.tracks.eraseIdx fromIndex
    let tracks' := ts.take toIndex ++ [t] ++ ts.drop toIndex
    let cur' :=
      if fromIndex = q.currentIndex then toIndex
      else if fromIndex < q.currentIndex ∧ toIndex ≥ q.currentIndex then q.currentIndex - 1
      else if fromIndex > q.currentIndex ∧ toIndex ≤ q.currentIndex then q.currentIndex + 1
      else q.currentIndex
    let q1 := { q with tracks := tracks', currentIndex := cur' }
    if q.shuffled then q1.updateShuffleOrder else q1

/-- The index resolution `shuffled_ ? shuffleOrder_[currentIndex_] : currentIndex_`. -/
def Queue.naturalIndex (q : Queue) : Nat :=
  if q.shuffled then q.shuffleOrder.getD q.currentIndex 0 else q.currentIndex

/-- `Queue::current`. -/
def Queue.current (q : Queue) : Option TrackInfo :=
  if q.tracks.isEmpty then none
  else some (q.tracks.getD q.naturalIndex default)

/-- `Queue::next`: unconditionally push the pre-advance cursor onto the
history, then advance unless already at the last position. Returns the
yielded track together with the new state. -/
def Queue.next (q : Queue) : Option TrackInfo × Queue :=
  if q.tracks.isEmpty then (none, q)
  else
    let q1 := { q with history := q.history ++ [q.currentIndex] }
    if q.currentIndex + 1 ≥ q.tracks.length then (none, q1)
    else
      let q2 := { q1 with currentIndex := q.currentIndex + 1 }
      (some (q2.tracks.getD q2.naturalIndex default), q2)

/-- `Queue::previous`: pop the history when non-empty, otherwise decrement,
otherwise fail. -/
def Queue.previous (q : Queue) : Option TrackInfo × Queue :=
  if q.tracks.isEmpty then (none, q)
  else if q.history.isEmpty then
    if q.currentIndex > 0 then
      let q' := { q with currentIndex := q.currentIndex - 1 }
      (some (q'.tracks.getD q'.naturalIndex default), q')
    else (none, q)
  else
    let q' := { q with currentIndex := q.history.getLastD 0, history := q.history.dropLast }
    (some (q'.tracks.getD q'.naturalIndex default), q')

/-- `Queue::jumpTo`: in-range jumps push the old cursor onto the history. -/
def Queue.jumpTo (index : Nat) (q : Queue) : Queue :=
  if index < q.tracks.length then
    { q with history := q.history ++ [q.currentIndex], currentIndex := index }
  else q

/-- `Queue::jumpToId`: scan visit positions in order, resolving through the
permutation while shuffled; jump to the first position whose track id
matches. -/
def Queue.jumpToId (trackId : String) (q : Queue) : Queue :=
  match (List.range q.tracks.length).find? (fun i =>
      (q.tracks.getD (if q.shuffled then q.shuffleOrder.getD i 0 else i) default).id == trackId) with
  | some i => { q with history := q.history ++ [q.currentIndex], currentIndex := i }
  | none => q

/-- The pinned Fisher-Yates loop of `Queue::shuffle`: skip the iteration at
`i = cur`, and redirect a drawn `j = cur` to `(j+1) % len` (or to 0 when
that also hits `cur`). The first argument is the loop counter `i`. -/
def fyPinned (cur len : Nat) : Nat → List Nat → List Nat → List Nat × List Nat
  | 0, order, rng => (order, rng)
  | i + 1, order, rng =>
    if i + 1 = cur then fyPinned cur len i order rng
    else
      let d := draw (i + 1) rng
      let j :=
        if d.1 = cur then
          (if (d.1 + 1) % len = cur then 0 else (d.1 + 1) % len)
        else d.1
      fyPinned cur len i (swapL order (i + 1) j) d.2

/-- `Queue::shuffle`: resize-and-iota the permutation, *then* read
`shuffleOrder_[currentIndex_]` as the track index to pin, run the pinned
Fisher-Yates pass, and finally swap the pinned value back to the cursor
slot. The embedding keeps the source's statement order exactly. -/
def Queue.shuffle (q : Queue) : Queue :=
  if q.tracks.isEmpty then q
  else
    let len := q.tracks.length
    let order0 := List.range len
    let currentTrackIndex :=
      if q.shuffled then order0.getD q.currentIndex 0 else q.currentIndex
    let p := fyPinned q.currentIndex len (len - 1) order0 q.rng
    let order2 :=
      match p.1.findIdx? (fun x => x == currentTrackIndex) with
      | some pos => swapL p.1 pos q.currentIndex
      | none => p.1
    { q with shuffleOrder := order2, rng := p.2, shuffled := true }

/-- `Queue::unshuffle`: resolve the cursor through the permutation, then
drop the permutation. -/
def Queue.unshuffle (q : Queue) : Queue :=
  if q.shuffled = false then q
  else
    { q with currentIndex := q.shuffleOrder.getD q.currentIndex 0,
             shuffleOrder := [], shuffled := false }

/-- `soda::PlaybackState`. -/
inductive PlaybackState where
  | Stopped | Playing | Paused | Buffering
  deriving DecidableEq, Repr

/-- `soda::RepeatMode`. -/
inductive RepeatMode where
  | Off | One | All
  deriving DecidableEq, Repr

/-- Events the engine hands to the `EventBus` (both the synchronous `emit*`
calls and `publishAsync`), in emission order. -/
inductive EngineEvent where
  | trackChanged (t : TrackInfo)
  | playbackStarted (t : TrackInfo)
  | playbackStopped
  | playbackPaused
  deriving DecidableEq, Repr

/-- The navigation-level state of `soda::AudioEngine`: the owned queue, the
playback state machine, repeat mode, the frame counters, the current track,
and the trace of emitted events. -/
structure EngineNav where
  queue : Queue
  state : PlaybackState
  repeatMode : RepeatMode
  decoderOpen : Bool
  currentFrame : Nat
  totalFrames : Nat
  currentTrack : Option TrackInfo
  events : List EngineEvent
  deriving DecidableEq, Repr

namespace AudioEngine

/-- `AudioEngine::stop`: no-op when already stopped; otherwise close the
decoder, zero the counters, clear the current track and emit stopped. -/
def stop (e : EngineNav) : EngineNav :=
  if e.state = .Stopped then e
  else
    { e with decoderOpen := false, state := .Stopped, currentFrame := 0,
             totalFrames := 0, currentTrack := none,
             events := e.events ++ [.playbackStopped] }

/-- `AudioEngine::playTrack`: close and reopen the decoder session for the
given track. The decoder open is external I/O; its outcome (`openOk`) and
the reported stream length (`newTotal`) parametrise the embedding. On
success: reset counters, set the current track, start playing, emit
track-changed then playback-started. On failure the session stays closed
and the engine state is otherwise unchanged (the error is returned). -/
def playTrack (openOk : Bool) (newTotal : Nat) (t : TrackInfo) (e : EngineNav) : EngineNav :=
  if openOk then
    { e with decoderOpen := true, totalFrames := newTotal, currentFrame := 0,
             currentTrack := some t, state := .Playing,
             events := e.events ++ [.trackChanged t, .playbackStarted t] }
  else { e with decoderOpen := false }

/-- `AudioEngine::playNext`: ask the queue for the next track; play it if
one results, otherwise `stop()`. -/
def playNext (openOk : Bool) (newTotal : Nat) (e : EngineNav) : EngineNav :=
  let p := e.queue.next
  match p.1 with
  | some t => playTrack openOk newTotal t { e with queue := p.2 }
  | none => stop { e with queue := p.2 }

/-- `AudioEngine::playPrevious`: ask the queue for the previous track; play
it if one results, otherwise do nothing. -/
def playPrevious (openOk : Bool) (newTotal : Nat) (e : EngineNav) : EngineNav :=
  let p := e.queue.previous
  match p.1 with
  | some t => playTrack openOk newTotal t { e with queue := p.2 }
  | none => { e with queue := p.2 }

/-- `AudioEngine::onTrackEnded`: repeat-one seeks back to frame 0;
otherwise advance the queue and publish the next track, or wrap to index 0
under repeat-all on a non-empty queue, or store `Stopped` and publish
playback-stopped. -/
def onTrackEnded (e : EngineNav) : EngineNav :=
  if e.repeatMode = .One then { e with currentFrame := 0 }
  else
    let p := e.queue.next
    match p.1 with
    | some t => { e with queue := p.2, events := e.events ++ [.trackChanged t] }
    | none =>
      if e.repeatMode = .All ∧ p.2.tracks.isEmpty = false then
        let q2 := p.2.jumpTo 0
        match q2.current with
        | some t => { e with queue := q2, events := e.events ++ [.trackChanged t] }
        | none => { e with queue := q2 }
      else
        { e with queue := p.2, state := .Stopped, events := e.events ++ [.playbackStopped] }

end AudioEngine

/-- The real-time-path state of `soda::AudioEngine`: the scalar atomics the
audio callback reads, plus the open decoder session. The decoder's
remaining stream is modelled as the list of stereo frames it will still
yield (`decPending`); `ma_decoder_read_pcm_frames` hands out up to the
requested number of frames from its front. -/
structure EngineRt where
  state : PlaybackState
  decoderOpen : Bool
  decPending : List (ℚ × ℚ)
  decCurrentFrame : Nat
  decTotalFrames : Nat
  decSampleRate : Nat
  engCurrentFrame : Nat
  engTotalFrames : Nat
  volume : ℚ
  deriving DecidableEq, Repr

/-- Interleave stereo frames into the flat sample buffer layout the
callback writes (`out[2k] = left, out[2k+1] = right`). -/
def interleave : List (ℚ × ℚ) → List ℚ
  | [] => []
  | p :: rest => p.1 :: p.2 :: interleave rest

/-- What one invocation of `AudioEngine::audioCallback` produced: the
sample buffer it wrote, whether it called `decoder_->readFrames`, how many
frames that read returned, whether it invoked `onTrackEnded`, and the
updated scalar state. -/
structure CallbackResult where
  output : List ℚ
  readPerformed : Bool
  framesRead : Nat
  ended : Bool
  engine : EngineRt
  deriving DecidableEq, Repr

namespace AudioEngine

/-- `AudioEngine::audioCallback`: when not Playing or no session is open,
memset the whole buffer to zero and return without touching the decoder.
Otherwise read up to `frameCount` frames, advance both frame counters,
multiply every read sample by the stored volume, zero-fill the shortfall,
and invoke `onTrackEnded` iff `decoder.currentFrame >= decoder.totalFrames`
after the read. -/
def audioCallback (e : EngineRt) (frameCount : Nat) : CallbackResult :=
  if e.state ≠ .Playing ∨ e.decoderOpen = false then
    { output := List.replicate (frameCount * 2) 0, readPerformed := false,
      framesRead := 0, ended := false, engine := e }
  else
    let framesRead := min frameCount e.decPending.length
    let raw := interleave (e.decPending.take framesRead)
    let e1 := { e with decPending := e.decPending.drop framesRead,
                       decCurrentFrame := e.decCurrentFrame + framesRead,
                       engCurrentFrame := e.engCurrentFrame + framesRead }
    let scaled := raw.map (fun s => s * e.volume)
    let output := scaled ++ List.replicate ((frameCount - framesRead) * 2) 0
    { output := output, readPerformed := true, framesRead := framesRead,
      ended := decide (e1.decCurrentFrame ≥ e1.decTotalFrames), engine := e1 }

/-- `AudioEngine::setVolume`: store `std::clamp(volume, 0.0f, 1.0f)`. -/
def setVolume (v : ℚ) (e : EngineRt) : EngineRt :=
  { e with volume := if v < 0 then 0 else if 1 < v then 1 else v }

/-- `AudioEngine::position`: `(currentFrame * 1000) / sampleRate` ms,
guarded to 0 when the decoder's sample rate is unknown. -/
def position (e : EngineRt) : Nat :=
  if e.decSampleRate = 0 then 0 else e.engCurrentFrame * 1000 / e.decSampleRate

/-- `AudioEngine::duration`: `(totalFrames * 1000) / sampleRate` ms,
guarded to 0 when the decoder's sample rate is unknown. -/
def duration (e : EngineRt) : Nat :=
  if e.decSampleRate = 0 then 0 else e.engTotalFrames * 1000 / e.decSampleRate

end AudioEngine

/-- The frame/rate counters of `soda::AudioDecoder`. -/
structure AudioDecoder where
  totalFrames : Nat
  currentFrame : Nat
  sampleRate : Nat
  deriving DecidableEq, Repr

/-- `AudioDecoder::duration`: `(totalFrames_ * 1000) / sampleRate_` ms,
0 when the sample rate is 0. -/
def AudioDecoder.duration (d : AudioDecoder) : Nat :=
  if d.sampleRate = 0 then 0 else d.totalFrames * 1000 / d.sampleRate

/-- `AudioDecoder::position`: `(currentFrame_ * 1000) / sampleRate_` ms,
0 when the sample rate is 0. -/
def AudioDecoder.position (d : AudioDecoder) : Nat :=
  if d.sampleRate = 0 then 0 else d.currentFrame * 1000 / d.sampleRate

/-- State part of `Queue::next`. -/
def Queue.nextS (q : Queue) : Queue := (Queue.next q).2

/-- State part of `Queue::previous`. -/
def Queue.prevS (q : Queue) : Queue := (Queue.previous q).2

/-! Concrete tracks used by the concrete evaluation theorems. -/

def trkA : TrackInfo := ⟨"a", "", "", "", "", ""⟩

def trkB : TrackInfo := ⟨"b", "", "", "", "", ""⟩

def trkC : TrackInfo := ⟨"c", "", "", "", "", ""⟩

def trkD : TrackInfo := ⟨"d", "", "", "", "", ""⟩

/-- `previous()` exactly undoes `next()`: `next` always records the
pre-advance cursor on the history stack, and `previous` restores it from
there, so the composite is the identity on every queue state. -/
theorem Queue.prevS_nextS (q : Queue) : Queue.prevS (Queue.nextS q) = q := by
  obtain ⟨tracks, so, hist, cur, sh, rng⟩ := q
  by_cases ht : tracks.isEmpty
  · simp [Queue.nextS, Queue.prevS, Queue.next, Queue.previous, ht]
  · by_cases hc : cur + 1 ≥ tracks.length
    · simp [Queue.nextS, Queue.prevS, Queue.next, Queue.previous, ht, hc,
        List.getLastD_concat]
    · simp [Queue.nextS, Queue.prevS, Queue.next, Queue.previous, ht, hc,
        List.getLastD_concat]

/-- C6: for every queue state and every `n`, performing `n` calls to
`next()` followed by `n` calls to `previous()` restores the entire queue
state; in particular `current()` designates the same track and the
natural-order position (`naturalIndex`) is the original one. -/
theorem c6_next_previous_roundtrip (q : Queue) (n : Nat) :
    Queue.prevS^[n] (Queue.nextS^[n] q) = q ∧
    Queue.current (Queue.prevS^[n] (Queue.nextS^[n] q)) = Queue.current q ∧
    (Queue.prevS^[n] (Queue.nextS^[n] q)).naturalIndex = q.naturalIndex := by
  have main : ∀ m (s : Queue), Queue.prevS^[m] (Queue.nextS^[m] s) = s := by
    intro m
    induction m with
    | zero => intro s; simp
    | succ k ih =>
      intro s
      rw [Function.iterate_succ_apply' (f := Queue.nextS),
        Function.iterate_succ_apply (f := Queue.prevS),
        Queue.prevS_nextS, ih]
  exact ⟨main n q, by rw [main n q], by rw [main n q]⟩

/-- The C1 failing trace: from the empty queue, `add a`, `add b`, `next()`
(cursor now 1), then `remove(trackId = "b")`. -/
def c1state : Queue :=
  Queue.removeId "b" (Queue.nextS (Queue.add trkB (Queue.add trkA (Queue.mk0 []))))

/-- C1: the cursor invariant `currentIndex < tracks.size()` is violated by
`Queue::remove(const std::string&)`, which never clamps the cursor: after
the trace the queue is non-empty with one track yet `currentIndex = 1`. -/
theorem c1_cursor_invariant_violated :
    c1state.tracks.isEmpty = false ∧
    c1state.tracks.length = 1 ∧
    c1state.currentIndex = 1 ∧
    ¬ c1state.currentIndex < c1state.tracks.length := by decide

/-- The C2 counterexample state: `add a`, `add b`, `add c`, then `shuffle()`
with draws yielding the identity-fixing swaps, giving the shuffled queue
with permutation `[0, 2, 1]`, cursor 0, current track `a`. -/
def c2state : Queue :=
  Queue.shuffle (Queue.add trkC (Queue.add trkB (Queue.add trkA (Queue.mk0 [1, 1, 0]))))

/-- C2 counterexample: in the shuffled state, removing natural index 1
(track `b`, which is not the current track `a`) regenerates the shuffle
permutation without pinning, and `current()` changes from `a` to `c`. -/
theorem c2_remove_noncurrent_changes_current :
    Queue.current c2state = some trkA ∧
    (c2state.tracks.getD 1 default).id = "b" ∧
    c2state.naturalIndex ≠ 1 ∧
    Queue.current (Queue.remove 1 c2state) = some trkC ∧
    trkC ≠ trkA := by decide

/-- C2 (amended): while the queue is *not* shuffled, removing an entry
other than the current one leaves `current()` unchanged. -/
theorem c2_amended_remove_noncurrent_unshuffled (q : Queue) (index : Nat)
    (hsh : q.shuffled = false)
    (hcur : q.currentIndex < q.tracks.length)
    (hne : index ≠ q.currentIndex) :
    Queue.current (Queue.remove index q) = Queue.current q := by
  by_cases hge : index ≥ q.tracks.length
  · simp [Queue.remove, hge]
  · have hlt : index < q.tracks.length := Nat.lt_of_not_le hge
    have hlen' : (q.tracks.eraseIdx index).length = q.tracks.length - 1 :=
      List.length_eraseIdx_of_lt hlt
    have hq : q.tracks.isEmpty = false := by
      rw [List.isEmpty_eq_false]
      intro h0
      rw [h0] at hlt
      simp at hlt
    rcases Nat.lt_or_gt_of_ne hne with h1 | h1
    · have hpos : 0 < (q.tracks.eraseIdx index).length := by omega
      have hne' : (q.tracks.eraseIdx index).isEmpty = false :=
        List.isEmpty_eq_false.mpr (List.length_pos.mp hpos)
      have hidx : q.currentIndex - 1 + 1 = q.currentIndex := by omega
      have hget : (q.tracks.eraseIdx index)[q.currentIndex - 1]?.getD default
          = q.tracks[q.currentIndex]?.getD default := by
        rw [List.getElem?_eraseIdx_of_ge _ _ _ (by omega), hidx]
      simp [Queue.remove, hge, h1, Queue.current, Queue.naturalIndex, hsh, hne', hq, hget]
    · have hpos : 0 < (q.tracks.eraseIdx index).length := by omega
      have hne' : (q.tracks.eraseIdx index).isEmpty = false :=
        List.isEmpty_eq_false.mpr (List.length_pos.mp hpos)
      have hget : (q.tracks.eraseIdx index)[q.currentIndex]?.getD default
          = q.tracks[q.currentIndex]?.getD default := by
        rw [List.getElem?_eraseIdx_of_lt _ _ _ h1]
      have hnotlt : ¬ index < q.currentIndex := by omega
      simp [Queue.remove, hge, hnotlt, hne, Queue.current, Queue.naturalIndex, hsh,
        hne', hq, hget]

/-- Witness for the amended C2 at a concrete input: queue `[a, b]`,
cursor 0, unshuffled; removing index 1 keeps `current() = a`. -/
theorem c2_amended_witness :
    Queue.current (Queue.remove 1 (Queue.add trkB (Queue.add trkA (Queue.mk0 [])))) =
      Queue.current (Queue.add trkB (Queue.add trkA (Queue.mk0 []))) :=
  c2_amended_remove_noncurrent_unshuffled (Queue.add trkB (Queue.add trkA (Queue.mk0 [])))
    1 (by decide) (by decide) (by decide)

/-- The C3 failing trace: `add a..d`, `shuffle()` (draws keep the identity
permutation), `remove(3)` (regeneration draws produce permutation
`[2, 0, 1]`, so the current track at cursor 0 is `c`). -/
def c3state : Queue :=
  Queue.remove 3 (Queue.shuffle (Queue.add trkD (Queue.add trkC (Queue.add trkB
    (Queue.add trkA (Queue.mk0 [3, 2, 1, 1, 0, 2, 1]))))))

/-- C3: re-shuffling an already-shuffled queue does *not* keep the current
track: `Queue::shuffle` overwrites the permutation with iota before reading
`shuffleOrder_[currentIndex_]` as the pin target, so it pins the wrong
track. On the trace, `current()` is `c` before the call and `a` after it,
at the same `currentIndex`. -/
theorem c3_shuffle_drops_current_when_already_shuffled :
    c3state.shuffled = true ∧
    Queue.current c3state = some trkC ∧
    (Queue.shuffle c3state).currentIndex = c3state.currentIndex ∧
    Queue.current (Queue.shuffle c3state) = some trkA ∧
    trkA ≠ trkC := by decide

/-- The C4 counterexample state: a one-track queue with the cursor at the
(only, hence last) position and empty history. -/
def c4state : Queue := Queue.add trkA (Queue.mk0 [])

/-- C4 counterexample: `next()` at the last position returns `nullopt` but
does *not* leave the state unchanged — the history stack grows. -/
theorem c4_next_at_end_mutates_history :
    (Queue.next c4state).1 = none ∧
    (Queue.next c4state).2 ≠ c4state ∧
    c4state.history = [] ∧
    (Queue.next c4state).2.history = [0] := by decide

/-- C4 (amended): `next()` at the last position of a non-empty queue
returns `nullopt` and leaves tracks, cursor and shuffle order unchanged,
but still pushes the pre-advance `currentIndex` onto the history stack. -/
theorem c4_amended_next_at_end (q : Queue)
    (hne : q.tracks.isEmpty = false)
    (hend : q.currentIndex + 1 ≥ q.tracks.length) :
    (Queue.next q).1 = none ∧
    (Queue.next q).2 = { q with history := q.history ++ [q.currentIndex] } := by
  simp [Queue.next, hne, hend]

/-- Witness for the amended C4 at the concrete one-track queue. -/
theorem c4_amended_witness :
    (Queue.next c4state).1 = none ∧
    (Queue.next c4state).2 = { c4state with history := c4state.history ++ [c4state.currentIndex] } :=
  c4_amended_next_at_end c4state (by decide) (by decide)

/-- A 3-track queue in natural order with the cursor at 0. -/
def c5queue (t0 t1 t2 : TrackInfo) : Queue :=
  Queue.add t2 (Queue.add t1 (Queue.add t0 (Queue.mk0 [])))

/-- An engine in the Playing state owning the given queue, with the given
repeat mode. -/
def c5engine (q : Queue) (rm : RepeatMode) : EngineNav :=
  { queue := q, state := .Playing, repeatMode := rm, decoderOpen := true,
    currentFrame := 0, totalFrames := 0, currentTrack := none, events := [] }

/-- C5: with 3 tracks and cursor 0, two `next()` calls reach index 2
(yielding tracks 1 and 2); the third advance yields no track, and under
`repeatMode = Off` both `playNext()` (via `stop()`) and `onTrackEnded`
leave the engine `Stopped`, while under `repeatMode = All` the end-of-track
handler wraps the queue to index 0 and requests track 0 again. -/
theorem c5_end_of_queue_policy (t0 t1 t2 : TrackInfo) (openOk : Bool) (newTotal : Nat) :
    (Queue.next (c5queue t0 t1 t2)).1 = some t1 ∧
    (Queue.nextS (c5queue t0 t1 t2)).currentIndex = 1 ∧
    (Queue.next (Queue.nextS (c5queue t0 t1 t2))).1 = some t2 ∧
    (Queue.nextS (Queue.nextS (c5queue t0 t1 t2))).currentIndex = 2 ∧
    (Queue.next (Queue.nextS (Queue.nextS (c5queue t0 t1 t2)))).1 = none ∧
    (AudioEngine.playNext openOk newTotal
      (c5engine (Queue.nextS (Queue.nextS (c5queue t0 t1 t2))) .Off)).state = .Stopped ∧
    (AudioEngine.onTrackEnded
      (c5engine (Queue.nextS (Queue.nextS (c5queue t0 t1 t2))) .Off)).state = .Stopped ∧
    (AudioEngine.onTrackEnded
      (c5engine (Queue.nextS (Queue.nextS (c5queue t0 t1 t2))) .All)).events =
        [.trackChanged t0] ∧
    (AudioEngine.onTrackEnded
      (c5engine (Queue.nextS (Queue.nextS (c5queue t0 t1 t2))) .All)).queue.currentIndex = 0 ∧
    (AudioEngine.onTrackEnded
      (c5engine (Queue.nextS (Queue.nextS (c5queue t0 t1 t2))) .All)).state = .Playing := by
  refine ⟨?_, ?_, ?_, ?_, ?_, ?_, ?_, ?_, ?_, ?_⟩ <;>
    simp [c5queue, c5engine, Queue.next, Queue.nextS, Queue.add, Queue.mk0,
      AudioEngine.playNext, AudioEngine.onTrackEnded, AudioEngine.stop,
      Queue.jumpTo, Queue.current, Queue.naturalIndex]

/-- C7: while Playing with an open session whose reported total frame count
is 0 (length unknown), every audio callback invocation triggers
end-of-track handling, because `currentFrame >= totalFrames` holds
trivially. -/
theorem c7_zero_total_frames_triggers_ended (e : EngineRt) (frameCount : Nat)
    (hs : e.state = .Playing) (ho : e.decoderOpen = true)
    (ht : e.decTotalFrames = 0) :
    (AudioEngine.audioCallback e frameCount).ended = true := by
  have hcond : ¬ (e.state ≠ PlaybackState.Playing ∨ e.decoderOpen = false) := by
    simp [hs, ho]
  unfold AudioEngine.audioCallback
  rw [if_neg hcond]
  simp [ht]

/-- A Playing engine with an open zero-length session, for the C7 witness. -/
def rt0 : EngineRt :=
  { state := .Playing, decoderOpen := true, decPending := [((1 : ℚ) / 2, -(1 : ℚ) / 4)],
    decCurrentFrame := 0, decTotalFrames := 0, decSampleRate := 44100,
    engCurrentFrame := 0, engTotalFrames := 0, volume := 1 / 2 }

/-- Witness for C7 at a concrete engine state and frame count. -/
theorem c7_witness : (AudioEngine.audioCallback rt0 4).ended = true :=
  c7_zero_total_frames_triggers_ended rt0 4 rfl rfl rfl

/-- The interleaved buffer holds two samples per stereo frame. -/
theorem interleave_length (l : List (ℚ × ℚ)) : (interleave l).length = 2 * l.length := by
  induction l with
  | nil => simp [interleave]
  | cons p rest ih => simp [interleave, ih]; ring

/-- Reading inside the mapped prefix of a buffer scales the raw sample. -/
theorem getD_map_mul (l : List ℚ) (vol : ℚ) (i : Nat) (hi : i < l.length) :
    (l.map (fun s => s * vol)).getD i 0 = l.getD i 0 * vol := by
  rw [List.getD_eq_getElem _ _ (by simpa using hi), List.getElem_map,
    List.getD_eq_getElem _ _ hi]

/-- C8: `setVolume` stores exactly the clamp of its argument into
`[0, 1]` — in particular `setVolume (-1)` stores 0 and `setVolume 2`
stores 1 — and, within the frames the callback read, every sample written
to the output buffer is the decoded sample multiplied by the stored
volume. -/
theorem c8_volume_clamp_and_linear_scaling (v : ℚ) (e : EngineRt) (fc i : Nat)
    (hs : e.state = .Playing) (ho : e.decoderOpen = true)
    (hi : i < (AudioEngine.audioCallback e fc).framesRead * 2) :
    (AudioEngine.setVolume v e).volume = max 0 (min 1 v) ∧
    (AudioEngine.setVolume (-1) e).volume = 0 ∧
    (AudioEngine.setVolume 2 e).volume = 1 ∧
    (AudioEngine.audioCallback e fc).output.getD i 0 =
      (interleave (e.decPending.take (min fc e.decPending.length))).getD i 0 * e.volume := by
  have hcond : ¬ (e.state ≠ PlaybackState.Playing ∨ e.decoderOpen = false) := by
    simp [hs, ho]
  refine ⟨?_, ?_, ?_, ?_⟩
  · simp only [AudioEngine.setVolume]
    rcases lt_or_le v 0 with h | h
    · rw [if_pos h, min_eq_right (le_of_lt (lt_of_lt_of_le h zero_le_one)),
        max_eq_left h.le]
    · rw [if_neg (not_lt.mpr h)]
      rcases lt_or_le 1 v with h2 | h2
      · rw [if_pos h2, min_eq_left h2.le, max_eq_right zero_le_one]
      · rw [if_neg (not_lt.mpr h2), min_eq_right h2, max_eq_right h]
  · norm_num [AudioEngine.setVolume]
  · norm_num [AudioEngine.setVolume]
  · have hfr : (AudioEngine.audioCallback e fc).framesRead = min fc e.decPending.length := by
      unfold AudioEngine.audioCallback
      rw [if_neg hcond]
    have hout : (AudioEngine.audioCallback e fc).output =
        (interleave (e.decPending.take (min fc e.decPending.length))).map
          (fun s => s * e.volume) ++
        List.replicate ((fc - min fc e.decPending.length) * 2) 0 := by
      unfold AudioEngine.audioCallback
      rw [if_neg hcond]
    rw [hfr] at hi
    have hlen : (interleave (e.decPending.take (min fc e.decPending.length))).length =
        2 * min fc e.decPending.length := by
      rw [interleave_length, List.length_take]
      omega
    rw [hout, List.getD_append _ _ _ _ (by rw [List.length_map, hlen]; omega),
      getD_map_mul _ _ _ (by rw [hlen]; omega)]

/-- A Playing engine with an open session and two pending stereo frames,
for the C8 witness. -/
def rt1 : EngineRt :=
  { state := .Playing, decoderOpen := true,
    decPending := [((1 : ℚ) / 2, -(1 : ℚ) / 4), ((1 : ℚ), (0 : ℚ))],
    decCurrentFrame := 5, decTotalFrames := 100, decSampleRate := 44100,
    engCurrentFrame := 5, engTotalFrames := 100, volume := 1 / 2 }

/-- Witness for C8 at a concrete engine, frame count and sample index. -/
theorem c8_witness :
    (AudioEngine.setVolume 7 rt1).volume = max 0 (min 1 7) ∧
    (AudioEngine.setVolume (-1) rt1).volume = 0 ∧
    (AudioEngine.setVolume 2 rt1).volume = 1 ∧
    (AudioEngine.audioCallback rt1 4).output.getD 0 0 =
      (interleave (rt1.decPending.take (min 4 rt1.decPending.length))).getD 0 0 * rt1.volume :=
  c8_volume_clamp_and_linear_scaling 7 rt1 4 0 rfl rfl (by decide)

/-- C9: while not Playing, or with no decoder session open, the audio
callback fills the whole requested buffer (`frameCount` stereo frames,
`2 * frameCount` samples) with zeros and returns without reading from the
decoder or touching any engine state. -/
theorem c9_silence_on_idle (e : EngineRt) (fc : Nat)
    (h : e.state ≠ PlaybackState.Playing ∨ e.decoderOpen = false) :
    (AudioEngine.audioCallback e fc).output = List.replicate (fc * 2) 0 ∧
    (AudioEngine.audioCallback e fc).readPerformed = false ∧
    (AudioEngine.audioCallback e fc).framesRead = 0 ∧
    (AudioEngine.audioCallback e fc).engine = e := by
  unfold AudioEngine.audioCallback
  rw [if_pos h]
  exact ⟨rfl, rfl, rfl, rfl⟩

/-- A stopped engine with a decoder session still open, for the C9 witness. -/
def rt2 : EngineRt :=
  { state := .Stopped, decoderOpen := true, decPending := [((1 : ℚ), (1 : ℚ))],
    decCurrentFrame := 0, decTotalFrames := 10, decSampleRate := 44100,
    engCurrentFrame := 0, engTotalFrames := 10, volume := 1 }

/-- Witness for C9 at a concrete idle engine and frame count. -/
theorem c9_witness :
    (AudioEngine.audioCallback rt2 3).output = List.replicate (3 * 2) 0 ∧
    (AudioEngine.audioCallback rt2 3).readPerformed = false ∧
    (AudioEngine.audioCallback rt2 3).framesRead = 0 ∧
    (AudioEngine.audioCallback rt2 3).engine = rt2 :=
  c9_silence_on_idle rt2 3 (Or.inl (by decide))

/-- C10: `duration()`/`position()` — on the decoder and on the engine —
return `(frameCount * 1000) / sampleRate` milliseconds when the sample
rate is known, and 0 when the sample rate is 0, so the division is always
guarded. -/
theorem c10_duration_position_guarded (d : AudioDecoder) (e : EngineRt) :
    (d.sampleRate = 0 → d.duration = 0 ∧ d.position = 0) ∧
    (d.sampleRate ≠ 0 → d.duration = d.totalFrames * 1000 / d.sampleRate ∧
      d.position = d.currentFrame * 1000 / d.sampleRate) ∧
    (e.decSampleRate = 0 → AudioEngine.position e = 0 ∧ AudioEngine.duration e = 0) ∧
    (e.decSampleRate ≠ 0 → AudioEngine.position e = e.engCurrentFrame * 1000 / e.decSampleRate ∧
      AudioEngine.duration e = e.engTotalFrames * 1000 / e.decSampleRate) := by
  refine ⟨fun h => ?_, fun h => ?_, fun h => ?_, fun h => ?_⟩ <;>
    simp [AudioDecoder.duration, AudioDecoder.position, AudioEngine.position,
      AudioEngine.duration, h]

/-- A decoder with an unknown sample rate, for the C10 witness. -/
def decZ : AudioDecoder := { totalFrames := 88200, currentFrame := 44100, sampleRate := 0 }

/-- A decoder with a known sample rate, for the C10 witness. -/
def dec1 : AudioDecoder := { totalFrames := 88200, currentFrame := 44100, sampleRate := 44100 }

/-- Witness for C10: the zero-rate guard and the known-rate formula, each
discharged at a concrete decoder (and the concrete engine `rt1`). -/
theorem c10_witness :
    (decZ.duration = 0 ∧ decZ.position = 0) ∧
    (dec1.duration = dec1.totalFrames * 1000 / dec1.sampleRate ∧
      dec1.position = dec1.currentFrame * 1000 / dec1.sampleRate) ∧
    (AudioEngine.position rt1 = rt1.engCurrentFrame * 1000 / rt1.decSampleRate) :=
  ⟨(c10_duration_position_guarded decZ rt1).1 rfl,
   (c10_duration_position_guarded dec1 rt1).2.1 (by decide),
   ((c10_duration_position_guarded dec1 rt1).2.2.2 (by decide)).1⟩

end Soda
